import Mathlib

/-!
Shallow embedding of `getgist` (src/getgist/__main__.py) and verification of
the frozen claims about it.

Modelling conventions:
* Python's `json.loads` values are modelled by the inductive `Json`; the
  stdlib JSON decoder (an external collaborator) is modelled by `jsonLoads`,
  a genuine executable parser for the JSON fragment the program exchanges
  with the GitHub API.  Its essential property, `jsonLoads "" = none`,
  mirrors `json.loads('')` raising `JSONDecodeError`.
* The network (urllib) is an oracle `World.http : String → HttpResp` giving,
  per URL, either a response with a status code and body, an `HTTPError`
  (raised by `urlopen` for HTTP-level error statuses), or any other raised
  transport exception (`URLError`: unreachable host, timeout, …) which the
  source never catches.
* Console and filesystem effects are threaded through an explicit state
  `St`; an uncaught Python exception is `Except.error` with a `Crash` tag.
* Machine strings are Lean `String`s (Python 3 `str` after UTF-8 decode).
-/

namespace Getgist

/-- Model of a decoded Python JSON value (result of `json.loads`). -/
inductive Json where
  | null
  | bool (b : Bool)
  | num (n : Int)
  | str (s : String)
  | arr (elems : List Json)
  | obj (fields : List (String × Json))

mutual

def Json.decEq : (a b : Json) → Decidable (a = b)
  | .null, .null => isTrue rfl
  | .null, .bool _ => isFalse nofun
  | .null, .num _ => isFalse nofun
  | .null, .str _ => isFalse nofun
  | .null, .arr _ => isFalse nofun
  | .null, .obj _ => isFalse nofun
  | .bool _, .null => isFalse nofun
  | .bool a, .bool b =>
    if h : a = b then isTrue (by rw [h]) else isFalse (by simp [h])
  | .bool _, .num _ => isFalse nofun
  | .bool _, .str _ => isFalse nofun
  | .bool _, .arr _ => isFalse nofun
  | .bool _, .obj _ => isFalse nofun
  | .num _, .null => isFalse nofun
  | .num _, .bool _ => isFalse nofun
  | .num a, .num b =>
    if h : a = b then isTrue (by rw [h]) else isFalse (by simp [h])
  | .num _, .str _ => isFalse nofun
  | .num _, .arr _ => isFalse nofun
  | .num _, .obj _ => isFalse nofun
  | .str _, .null => isFalse nofun
  | .str _, .bool _ => isFalse nofun
  | .str _, .num _ => isFalse nofun
  | .str a, .str b =>
    if h : a = b then isTrue (by rw [h]) else isFalse (by simp [h])
  | .str _, .arr _ => isFalse nofun
  | .str _, .obj _ => isFalse nofun
  | .arr _, .null => isFalse nofun
  | .arr _, .bool _ => isFalse nofun
  | .arr _, .num _ => isFalse nofun
  | .arr _, .str _ => isFalse nofun
  | .arr xs, .arr ys =>
    match decEqJL xs ys with
    | isTrue h => isTrue (by rw [h])
    | isFalse h => isFalse (by simp [h])
  | .arr _, .obj _ => isFalse nofun
  | .obj _, .null => isFalse nofun
  | .obj _, .bool _ => isFalse nofun
  | .obj _, .num _ => isFalse nofun
  | .obj _, .str _ => isFalse nofun
  | .obj _, .arr _ => isFalse nofun
  | .obj xs, .obj ys =>
    match decEqKVL xs ys with
    | isTrue h => isTrue (by rw [h])
    | isFalse h => isFalse (by simp [h])

def decEqJL : (xs ys : List Json) → Decidable (xs = ys)
  | [], [] => isTrue rfl
  | [], _ :: _ => isFalse nofun
  | _ :: _, [] => isFalse nofun
  | x :: xs, y :: ys =>
    match Json.decEq x y, decEqJL xs ys with
    | isTrue h₁, isTrue h₂ => isTrue (by rw [h₁, h₂])
    | isFalse h₁, _ => isFalse (by simp [h₁])
    | _, isFalse h₂ => isFalse (by simp [h₂])

def decEqKVL : (xs ys : List (String × Json)) → Decidable (xs = ys)
  | [], [] => isTrue rfl
  | [], _ :: _ => isFalse nofun
  | _ :: _, [] => isFalse nofun
  | (k₁, v₁) :: xs, (k₂, v₂) :: ys =>
    if hk : k₁ = k₂ then
      match Json.decEq v₁ v₂, decEqKVL xs ys with
      | isTrue h₁, isTrue h₂ => isTrue (by rw [hk, h₁, h₂])
      | isFalse h₁, _ => isFalse (by simp [h₁])
      | _, isFalse h₂ => isFalse (by simp [h₂])
    else isFalse (by simp [hk])

end

instance : DecidableEq Json := Json.decEq

/-- First-match association lookup, the view a Python dict offers once the
keys are unique (the parser's `insertKV` keeps them unique, last value
winning, exactly like `json.loads`). -/
def lookupKV : List (String × Json) → String → Option Json
  | [], _ => none
  | (k, v) :: rest, key => if k = key then some v else lookupKV rest key

/-- Python `d.get(key)` on a decoded JSON object; `none` when the key is absent or
the value is not a dict. -/
def Json.getField : Json → String → Option Json
  | .obj kvs, key => lookupKV kvs key
  | _, _ => none

/-- Dict insertion: replace the value of an existing key, else append
(CPython dict insertion order semantics, as produced by `json.loads`). -/
def insertKV (kvs : List (String × Json)) (k : String) (v : Json) :
    List (String × Json) :=
  if kvs.any (fun kv => kv.1 = k) then
    kvs.map (fun kv => if kv.1 = k then (k, v) else kv)
  else kvs ++ [(k, v)]

def skipWs (cs : List Char) : List Char := cs.dropWhile (fun c => c.isWhitespace)

/-- The string-escape table of the JSON grammar fragment the parser reads:
escape letter to decoded character. -/
def escChar (c : Char) : Option Char :=
  List.lookup c
    [('"', '"'), ('\\', '\\'), ('/', '/'),
      ('n', '\n'), ('t', '\t'), ('r', '\r')]

/-- Lex a JSON string body (opening quote already consumed); returns the
decoded characters and the remaining input. -/
def lexStr : List Char → Option (List Char × List Char)
  | [] => none
  | '"' :: rest => some ([], rest)
  | '\\' :: c :: rest =>
    match escChar c, lexStr rest with
    | some e, some (s, r) => some (e :: s, r)
    | _, _ => none
  | c :: rest =>
    match lexStr rest with
    | some (s, r) => some (c :: s, r)
    | none => none

def digitsToNat (ds : List Char) : Nat :=
  ds.foldl (fun a c => a * 10 + (c.toNat - 48)) 0

/-- Lex a JSON integer (the API payloads the program reads use no floats). -/
def lexNum (cs : List Char) : Option (Int × List Char) :=
  match cs with
  | '-' :: rest =>
    let p := rest.span (fun c => c.isDigit)
    if p.1 = [] then none else some (-(digitsToNat p.1 : Int), p.2)
  | _ =>
    let p := cs.span (fun c => c.isDigit)
    if p.1 = [] then none else some ((digitsToNat p.1 : Int), p.2)

mutual

/-- Fuel-indexed recursive-descent JSON value parser. -/
def parseVal : Nat → List Char → Option (Json × List Char)
  | 0, _ => none
  | fuel + 1, cs =>
    let cs := skipWs cs
    if "null".data.isPrefixOf cs then some (.null, cs.drop 4)
    else if "true".data.isPrefixOf cs then some (.bool true, cs.drop 4)
    else if "false".data.isPrefixOf cs then some (.bool false, cs.drop 5)
    else
      match cs with
      | '"' :: rest =>
        match lexStr rest with
        | some (s, r) => some (.str ⟨s⟩, r)
        | none => none
      | '[' :: rest =>
        match skipWs rest with
        | ']' :: r => some (.arr [], r)
        | _ => parseElems fuel rest []
      | '\x7b' :: rest =>
        match skipWs rest with
        | '\x7d' :: r => some (.obj [], r)
        | _ => parseFields fuel rest []
      | _ => lexNum cs |>.map (fun p => (.num p.1, p.2))

/-- Parse the comma-separated elements of a JSON array. -/
def parseElems : Nat → List Char → List Json → Option (Json × List Char)
  | 0, _, _ => none
  | fuel + 1, cs, acc =>
    match parseVal fuel cs with
    | none => none
    | some (v, r) =>
      match skipWs r with
      | ',' :: r₂ => parseElems fuel r₂ (acc ++ [v])
      | ']' :: r₂ => some (.arr (acc ++ [v]), r₂)
      | _ => none

/-- Parse the key/value fields of a JSON object. -/
def parseFields : Nat → List Char → List (String × Json) →
    Option (Json × List Char)
  | 0, _, _ => none
  | fuel + 1, cs, acc =>
    match skipWs cs with
    | '"' :: rest =>
      match lexStr rest with
      | none => none
      | some (k, r) =>
        match skipWs r with
        | ':' :: r₂ =>
          match parseVal fuel r₂ with
          | none => none
          | some (v, r₃) =>
            match skipWs r₃ with
            | ',' :: r₄ => parseFields fuel r₄ (insertKV acc ⟨k⟩ v)
            | '\x7d' :: r₄ => some (.obj (insertKV acc ⟨k⟩ v), r₄)
            | _ => none
        | _ => none
    | _ => none

end

/-- Model of `json.loads` on the response text: `none` models the decoder
raising (`json.loads('')` and any malformed payload). -/
def jsonLoads (s : String) : Option Json :=
  match parseVal (s.length + 1) s.data with
  | some (j, r) => if skipWs r = [] then some j else none
  | none => none

/-- Outcome of one `urlopen(Request(url))` call, per URL. -/
inductive HttpResp where
  | success (status : Nat) (body : String)
  | httpError
  | netError
deriving DecidableEq

/-- The external network: one response per URL for the current run. -/
structure World where
  http : String → HttpResp

/-- Tags for uncaught Python exceptions propagating out of the modelled
code.  `eofLoop` marks `select_file` re-prompting forever once stdin is
exhausted (`input()` raising `EOFError` is swallowed by the bare `except:`
and the code recurses on the same empty stdin). -/
inductive Crash where
  | netError
  | jsonError
  | keyError
  | typeError
  | attrError
  | eofError
  | eofLoop
  | osError
deriving DecidableEq

/-- Observable run state: console lines printed via `output`, prompts shown
via `ask`/`input`, the remaining scripted stdin, and the files of the local
working directory as (name, contents) pairs with unique names. -/
structure St where
  outputs : List String
  prompts : List String
  stdin : List String
  fs : List (String × String)
deriving DecidableEq

/-- Model of `self.output(message)`: `print` with the fixed two-space margin. -/
def St.out (st : St) (m : String) : St :=
  { st with outputs := st.outputs ++ ["  " ++ m] }

/-- Model of `self.ask(message)`: `input` with the fixed margin; `EOFError` when
stdin is exhausted. -/
def ask (m : String) (st : St) : Except Crash (String × St) :=
  match st.stdin with
  | [] => .error .eofError
  | a :: rest =>
    .ok (a, { st with stdin := rest, prompts := st.prompts ++ ["  " ++ m] })

def fsLookup : List (String × String) → String → Option String
  | [], _ => none
  | (k, v) :: rest, key => if k = key then some v else fsLookup rest key

/-- Python `open(path, 'w')` + `write`: truncate-or-create then fill. -/
def fsWrite (l : List (String × String)) (k v : String) :
    List (String × String) :=
  if (fsLookup l k).isSome then
    l.map (fun kv => if kv.1 = k then (k, v) else kv)
  else l ++ [(k, v)]

/-- Python `os.remove(path)` on the name (dropping every entry with that name). -/
def fsRemove (l : List (String × String)) (k : String) :
    List (String × String) :=
  l.filter (fun kv => kv.1 ≠ k)

def fsNames (l : List (String × String)) : List String := l.map Prod.fst

/-- Python `os.path.exists` within the local directory. -/
def fsExists (l : List (String × String)) (k : String) : Bool :=
  (fsLookup l k).isSome

def apiUrl : String := "https://api.github.com"

/-- Model of `Gist.curl`.  Faithful points: only `HTTPError` is caught (any other
transport exception — `URLError` for an unreachable host, a timeout — is
uncaught and propagates), and the non-200 diagnostic passes two format
arguments to a one-placeholder string, so the printed text carries the URL
and drops the status code.  Request headers (the `Authorization` injection
for an authenticated run, through a mutable default `headers` dict) carry
no observable effect here: the oracle fixes one response per URL for the
run, and each URL is fetched at most once. -/
def curl (w : World) (url : String) (st : St) : Except Crash (String × St) :=
  let st := st.out ("Fetching " ++ url ++ " …")
  match w.http url with
  | .netError => .error .netError
  | .httpError =>
    .ok ("", st.out ("[Error] Couldn\x27t reach GitHub at " ++ url ++ "."))
  | .success status body =>
    if status = 200 then .ok (body, st)
    else .ok ("", st.out ("[Error] HTTP Status " ++ url ++ "."))

/-- Python truthiness of the stored token: `os.getenv` gives `None` when
unset; an empty-string value is falsy the same way. -/
def tokFalsy : Option String → Bool
  | none => true
  | some t => t = ""

/-- Model of `Gist.get_token`: load the token from the environment, with a notice
when it is falsy. -/
def get_token (envTok : Option String) (st : St) : Option String × St :=
  if tokFalsy envTok then (envTok, st.out "No access token set.")
  else (envTok, st)

/-- Model of `Gist.validate_token`.  `json.loads` on the raw `curl` result: a
Transport failure hands it the empty string, which makes the decoder raise
(`Crash.jsonError`) — nothing in the source catches that. -/
def validate_token (w : World) (user : String) (tok : Option String)
    (st : St) : Except Crash (Bool × St) :=
  if tokFalsy tok then .ok (false, st)
  else do
    let (contents, st) ← curl w (apiUrl ++ "/user") st
    match jsonLoads contents with
    | none => .error .jsonError
    | some j =>
      match j with
      | .obj _ =>
        match j.getField "login" with
        | some (.str s) =>
          if s = user then .ok (true, st)
          else .ok (false, st.out ("Invalid token for user " ++ user ++ "."))
        | _ => .ok (false, st.out ("Invalid token for user " ++ user ++ "."))
      | _ => .error .attrError

/-- Model of `Gist.authenticated`: resolve the token, validate it, and report the
resulting mode. -/
def authenticated (w : World) (user : String) (envTok : Option String)
    (st : St) : Except Crash (Bool × St) := do
  let (tok, st) := get_token envTok st
  let (valid, st) ← validate_token w user tok st
  if tokFalsy tok || !valid then
    .ok (false, st.out "Looking for public Gists only.")
  else .ok (true, st.out ("User `" ++ user ++ "` authenticated."))

/-- Python subscripting `j[k]` with a string key: `KeyError` on a missing
dict key, `TypeError` on non-dict values. -/
def jsonSub (j : Json) (k : String) : Except Crash Json :=
  match j with
  | .obj kvs =>
    match lookupKV kvs k with
    | some v => .ok v
    | none => .error .keyError
  | _ => .error .typeError

/-- Boolean contiguous-substring test (Python `needle in haystack` on
strings). -/
def substrB (needle : List Char) : List Char → Bool
  | [] => needle.isEmpty
  | c :: rest => needle.isPrefixOf (c :: rest) || substrB needle rest

/-- Python membership `k in j` for a string `k`: key test on dicts, element
test on lists, substring test on strings, `TypeError` otherwise. -/
def pyIn (k : String) (j : Json) : Except Crash Bool :=
  match j with
  | .obj kvs => .ok (kvs.any (fun kv => kv.1 = k))
  | .arr xs => .ok (xs.any (fun x => x = .str k))
  | .str s => .ok (substrB k.data s.data)
  | _ => .error .typeError

/-- Python iteration over a decoded JSON value: list elements, dict keys,
string characters; `TypeError` otherwise. -/
def jsonIter (j : Json) : Except Crash (List Json) :=
  match j with
  | .arr xs => .ok xs
  | .obj kvs => .ok (kvs.map (fun kv => .str kv.1))
  | .str s => .ok (s.data.map (fun c => .str ⟨[c]⟩))
  | _ => .error .typeError

/-- Model of `Gist.query_api`: list the user's gists; an empty `curl` result is
treated as zero gists (`dict()`), with a hint, not as a failure. -/
def query_api (w : World) (user : String) (st : St) :
    Except Crash (Json × St) := do
  let (contents, st) ← curl w (apiUrl ++ "/users/" ++ user ++ "/gists") st
  if contents = "" then
    .ok (.obj [], st.out "[Hint] Check if the entered user name is correct.")
  else
    match jsonLoads contents with
    | none => .error .jsonError
    | some j => .ok (j, st)

/-- One matching gist as yielded by `Gist.filter_gists`: the dict
`\x7b'id': …, 'description': …, 'raw_url': …\x7d`. -/
structure GFile where
  id : Json
  description : Json
  raw_url : Json
deriving DecidableEq
-- `GFile` equality compares the three `Json` values structurally; Python's
-- dict `==` (used by `files.index`) agrees on the scalar `id`,
-- `description` and `raw_url` values the listing endpoint carries.

/-- One gist of the decoded listing, as processed by the
`Gist.filter_gists` generator body: read `gist['files']`, test membership
of the file name, and on a match build the
`\x7b'id', 'description', 'raw_url'\x7d` dict — in the source's evaluation
order. -/
def filterGistsAux (fname : String) : List Json → Except Crash (List GFile)
  | [] => .ok []
  | g :: rest => do
    let files ← jsonSub g "files"
    let b ← pyIn fname files
    if b then
      let i ← jsonSub g "id"
      let d ← jsonSub g "description"
      let fm ← jsonSub files fname
      let r ← jsonSub fm "raw_url"
      let tail ← filterGistsAux fname rest
      pure (⟨i, d, r⟩ :: tail)
    else filterGistsAux fname rest

/-- Pure core of `Gist.filter_gists`: run the generator over an
already-decoded listing (the list comprehension in `load_gist_info` drains
it eagerly). -/
def filterGists (fname : String) (j : Json) : Except Crash (List GFile) := do
  let items ← jsonIter j
  filterGistsAux fname items

/-- Spec-side (from the spec's words, for comparison with `filterGists`):
"its file mapping contains a key exactly equal to `file_name`". -/
def hasFileKey (fname : String) (g : Json) : Bool :=
  match g.getField "files" with
  | some (.obj fkvs) => fkvs.any (fun kv => kv.1 = fname)
  | _ => false

/-- Spec-side (from the spec's words): the `GistFileMatch` a gist
contributes — its id, its description, and the matched file's raw-content
URL — or `none` when the file mapping has no exactly-equal key. -/
def specMatch (fname : String) (g : Json) : Option GFile :=
  match g.getField "files" with
  | some (.obj fkvs) =>
    match lookupKV fkvs fname with
    | some fm =>
      match g.getField "id", g.getField "description",
          fm.getField "raw_url" with
      | some i, some d, some r => some ⟨i, d, r⟩
      | _, _, _ => none
    | none => none
  | _ => none

/-- Shape of a gist object as returned by the listing endpoint, to the
extent `filter_gists` touches it: a dict whose `files` value is a dict,
and — when the target name is among its keys — with `id` and `description`
present and the file metadata a dict carrying `raw_url`. -/
def wfGist (fname : String) (g : Json) : Bool :=
  match g with
  | .obj kvs =>
    match lookupKV kvs "files" with
    | some (.obj fkvs) =>
      match lookupKV fkvs fname with
      | some fm =>
        (lookupKV kvs "id").isSome && (lookupKV kvs "description").isSome &&
          (match fm with
          | .obj fmkvs => (lookupKV fmkvs "raw_url").isSome
          | _ => false)
      | none => true
    | _ => false
  | _ => false

/-- Model of `Gist.filter_gists` (with its `query_api` call). -/
def filter_gists (w : World) (user fname : String) (st : St) :
    Except Crash (List GFile × St) := do
  let (j, st) ← query_api w user st
  match filterGists fname j with
  | .error e => .error e
  | .ok gs => .ok (gs, st)

/-- Decimal numeral, most significant digit first — Python's `str` on a
non-negative int (`'\x7b\x7d'.format(count)` and friends). -/
def natStr (n : Nat) : String :=
  if n = 0 then "0"
  else ⟨(Nat.digits 10 n).reverse.map (fun d => Char.ofNat (48 + d))⟩

/-- Python's `str` of a decoded JSON value as used in output formatting.
Descriptions in the API are strings or `null`; container reprs are
abbreviated (no claim depends on them). -/
def pyStr : Json → String
  | .null => "None"
  | .bool true => "True"
  | .bool false => "False"
  | .num n => if n < 0 then "-" ++ natStr n.natAbs else natStr n.toNat
  | .str s => s
  | .arr _ => "[…]"
  | .obj _ => "\x7b…\x7d"

/-- The candidate backup names tried by `Gist.backup`, in loop order:
`<name>.bkp`, then `<name>.bkp<count>` for `count = 1, 2, …`. -/
def bkpName (fname : String) : Nat → String
  | 0 => fname ++ ".bkp"
  | c + 1 => fname ++ ".bkp" ++ natStr (c + 1)

/-- The `while os.path.exists(backup)` loop of `Gist.backup`, fuel-indexed:
starting at candidate `c`, advance while the candidate name exists.
`freshIdx` supplies fuel `dir.length + 1`, which is always enough
(`freshIdxAux_spec`/`fresh_exists` below), so this computes exactly the
loop's exit value: the least index whose name is not in the directory. -/
def freshIdxAux (dir : List String) (fname : String) : Nat → Nat → Nat
  | 0, c => c
  | fuel + 1, c =>
    if bkpName fname c ∈ dir then freshIdxAux dir fname fuel (c + 1) else c

def freshIdx (dir : List String) (fname : String) : Nat :=
  freshIdxAux dir fname (dir.length + 1) 0

/-- Model of `Gist.backup`: pick the first free backup name, announce, and
`os.rename` the existing file to it (`osError` if the source file is
missing, as `os.rename` would raise). -/
def backup (fname : String) (st : St) : Except Crash St :=
  let name := bkpName fname (freshIdx (fsNames st.fs) fname)
  let st := st.out ("Moving existing " ++ fname ++ " to " ++ name ++ "…")
  match fsLookup st.fs fname with
  | none => .error .osError
  | some c => .ok { st with fs := fsWrite (fsRemove st.fs fname) name c }

/-- Directory name-set evolution under repeated backups: each round renames
the base file to the backup name `Gist.backup` chooses (adding that name to
the directory), and the base file is recreated before the next round (as
`Gist.save` does); only the name set matters for the naming loop. -/
def iterDirs (dir : List String) (fname : String) : Nat → List String
  | 0 => dir
  | k + 1 =>
    bkpName fname (freshIdx (iterDirs dir fname k) fname) ::
      iterDirs dir fname k

/-- Python `int(s)` on user input: optional surrounding whitespace, an
optional sign, then decimal digits (underscore digit grouping is not
modelled; no claim exercises it). -/
def parsePyInt (s : String) : Option Int :=
  let cs :=
    ((s.data.dropWhile (fun c => c.isWhitespace)).reverse.dropWhile
      (fun c => c.isWhitespace)).reverse
  match cs with
  | '-' :: ds =>
    if ds ≠ [] ∧ ds.all (fun c => c.isDigit) then
      some (-(digitsToNat ds : Int))
    else none
  | '+' :: ds =>
    if ds ≠ [] ∧ ds.all (fun c => c.isDigit) then
      some ((digitsToNat ds : Int))
    else none
  | ds =>
    if ds ≠ [] ∧ ds.all (fun c => c.isDigit) then
      some ((digitsToNat ds : Int))
    else none

/-- The list `valid_indexes` as built by `Gist.select_file`: for each entry, the
index of its first occurrence (`files.index(f)`), as Python ints. -/
def validIdxs (files : List GFile) : List Int :=
  files.map (fun f => (List.indexOf f files : Int))

/-- Model of `Gist.select_file`.  Faithful points: a single match, or `assume_yes`,
returns `files[0]` with no console traffic at all; otherwise the
enumerated list is printed (numbering each entry by the index of its first
occurrence, as `files.index(f)` does) and the answer is read.  The bare
`except:` around `int(...)` turns any unparsable answer into a re-prompt —
a recursive retry of the whole disambiguation.  Invalid answers consume
stdin, so the recursion is measured by the remaining script; once stdin is
exhausted, `input()` raises `EOFError`, the bare `except:` swallows it and
the code re-prompts on the same empty stdin forever — modelled as the
terminal `Crash.eofLoop`.  The inner `.error .typeError` fallback is
unreachable: a `gist_index` drawn from `valid_indexes` is in bounds. -/
def select_file (fname : String) (ayes : Bool) (files : List GFile)
    (st : St) : Except Crash (Option GFile × St) :=
  if files.length = 0 then .ok (none, st)
  else if files.length = 1 ∨ ayes = true then
    match files with
    | [] => .ok (none, st)
    | f :: _ => .ok (some f, st)
  else
    match h : st.stdin with
    | [] => .error .eofLoop
    | ans :: rest =>
      let st₁ := st.out ("Download " ++ fname ++ " from which Gist?")
      let st₂ := files.foldl
        (fun acc f =>
          acc.out ("[" ++ natStr (List.indexOf f files + 1) ++ "] " ++
            pyStr f.description))
        st₁
      let st₃ : St :=
        { st₂ with stdin := rest,
                   prompts := st₂.prompts ++ ["  Type the number: "] }
      match parsePyInt ans with
      | none => select_file fname ayes files (st₃.out "Please type a number.")
      | some i =>
        if i - 1 ∈ validIdxs files then
          match files.get? (i - 1).toNat with
          | some sel =>
            .ok (some sel,
              st₃.out ("Using `" ++ pyStr sel.description ++ "` Gist…"))
          | none => .error .typeError
        else
          select_file fname ayes files
            (st₃.out "Invalid number, please try again.")
termination_by st.stdin.length
decreasing_by
  all_goals simp [St.out, h]

/-- The state `Gist.select_file` is in right after printing the question
and the enumerated candidate list and consuming one answer from stdin
(leaving `rest`): the intermediate `st₃` of `select_file`, written out. -/
def promptSt (fname : String) (files : List GFile) (st : St)
    (rest : List String) : St :=
  { outputs := (st.outputs ++
      ["  " ++ ("Download " ++ fname ++ " from which Gist?")]) ++
      files.map (fun f => "  " ++
        ("[" ++ natStr (List.indexOf f files + 1) ++ "] " ++
          pyStr f.description)),
    prompts := st.prompts ++ ["  Type the number: "],
    stdin := rest,
    fs := st.fs }

/-- Model of `Gist.load_gist_info`: filter, then select when anything matched, else
report and yield the falsy sentinel (`none`). -/
def load_gist_info (w : World) (user fname : String) (ayes : Bool)
    (st : St) : Except Crash (Option GFile × St) := do
  let (gists, st) ← filter_gists w user fname st
  if gists.isEmpty then
    .ok (none,
      st.out ("[Error] No file named `" ++ fname ++ "` found in " ++ user ++
        "\x27s Gists."))
  else select_file fname ayes gists st

/-- First half of `Gist.save`: the conflict handling for a pre-existing
local file — ask (unless `assume_yes`), delete exactly when the reply
lowercases to `"y"`, back up otherwise. -/
def save_conflict (fname : String) (ayes : Bool) (st : St) :
    Except Crash St :=
  if fsExists st.fs fname then
    match (if ayes then pure ("y", st)
      else ask ("Delete existing " ++ fname ++ " ? (y/n) ") st :
        Except Crash (String × St)) with
    | .error e => .error e
    | .ok (confirm, st) =>
      if confirm.toLower = "y" then
        let st := st.out ("Deleting existing " ++ fname ++ " …")
        .ok { st with fs := fsRemove st.fs fname }
      else backup fname st
  else .ok st

/-- Second half of `Gist.save`: `open(local_path, 'w')` truncates or
creates the target, then the fetched string — whatever `curl` returned,
including its empty-string failure signal — is written. -/
def save_fetch (w : World) (fname : String) (info : GFile) (st : St) :
    Except Crash St :=
  let st : St := { st with fs := fsWrite st.fs fname "" }
  match info.raw_url with
  | .str url => do
    let (contents, st) ← curl w url st
    let st := st.out ("Saving new " ++ fname ++ " …")
    let st : St := { st with fs := fsWrite st.fs fname contents }
    let st := st.out ("Saved as " ++ fname)
    let st := st.out "Done!"
    .ok st
  | _ => .error .typeError

/-- Model of `Gist.save`: conflict handling, then fetch-and-write.  The `Saved as`
line prints the absolute path; paths being modelled relative to the single
working directory, only the file name appears in it here. -/
def save (w : World) (fname : String) (ayes : Bool) (info : GFile)
    (st : St) : Except Crash St := do
  let st ← save_conflict fname ayes st
  save_fetch w fname info st

/-- Model of `run_getgist` with the argparse collaborator already resolved to
`user`/`fname`/`ayes` and the environment to `envTok` (spec §6 treats both
as external interfaces).  Mirrors `Gist.__init__` (config → `authenticated`
→ `load_gist_info`) followed by `if gist.info: gist.save()`. -/
def run_getgist (w : World) (user fname : String) (ayes : Bool)
    (envTok : Option String) (st : St) : Except Crash St := do
  let (_auth, st) ← authenticated w user envTok st
  let (info, st) ← load_gist_info w user fname ayes st
  match info with
  | some g => save w fname ayes g st
  | none => .ok st

/-! ## Shared computation lemmas -/

theorem bind_ok {α β : Type} (a : α) (f : α → Except Crash β) :
    (Except.ok a >>= f) = f a := rfl

theorem bind_err {α β : Type} (e : Crash) (f : α → Except Crash β) :
    ((Except.error e : Except Crash α) >>= f) = .error e := rfl

theorem jsonLoads_empty : jsonLoads "" = none := rfl

theorem fsLookup_map_replace (l : List (String × String)) (k v : String) :
    fsLookup (l.map (fun kv => if kv.1 = k then (k, v) else kv)) k =
      if (fsLookup l k).isSome then some v else none := by
  induction l with
  | nil => rfl
  | cons kv t ih =>
    obtain ⟨a, b⟩ := kv
    by_cases h : a = k
    · subst h
      simp only [List.map_cons]
      simp [fsLookup, ih]
    · simp only [List.map_cons]
      rw [if_neg (by simpa using h)]
      simp [fsLookup, h, ih]

theorem fsLookup_append_self (l : List (String × String)) (k v : String)
    (h : fsLookup l k = none) : fsLookup (l ++ [(k, v)]) k = some v := by
  induction l with
  | nil => simp [fsLookup]
  | cons kv t ih =>
    obtain ⟨a, b⟩ := kv
    by_cases hak : a = k
    · simp [fsLookup, hak] at h
    · simp only [fsLookup, hak, if_false, List.cons_append] at h ⊢
      exact ih h

theorem fsLookup_fsWrite_self (l : List (String × String)) (k v : String) :
    fsLookup (fsWrite l k v) k = some v := by
  unfold fsWrite
  by_cases h : (fsLookup l k).isSome
  · rw [if_pos h, fsLookup_map_replace, if_pos h]
  · rw [if_neg h]
    refine fsLookup_append_self l k v ?_
    cases hl : fsLookup l k with
    | none => rfl
    | some x => rw [hl] at h; simp at h

theorem fsLookup_none_forall (l : List (String × String)) (k : String)
    (h : fsLookup l k = none) : ∀ kv ∈ l, kv.1 ≠ k := by
  induction l with
  | nil => simp
  | cons kv t ih =>
    obtain ⟨a, b⟩ := kv
    by_cases hak : a = k
    · simp [fsLookup, hak] at h
    · simp only [fsLookup, hak, if_false] at h
      intro x hx
      rcases List.mem_cons.mp hx with rfl | hx
      · exact hak
      · exact ih h x hx

theorem fsWrite_fsWrite (l : List (String × String)) (k a b : String) :
    fsWrite (fsWrite l k a) k b = fsWrite l k b := by
  unfold fsWrite
  by_cases h : (fsLookup l k).isSome
  · rw [if_pos h]
    have h2 : (fsLookup
        (l.map (fun kv => if kv.1 = k then (k, a) else kv)) k).isSome := by
      rw [fsLookup_map_replace, if_pos h]
      rfl
    rw [if_pos h2, if_pos h, List.map_map]
    refine List.map_congr_left ?_
    intro kv _
    by_cases hkv : kv.1 = k <;> simp [hkv]
  · rw [if_neg h]
    have hnone : fsLookup l k = none := by
      cases hl : fsLookup l k with
      | none => rfl
      | some x => rw [hl] at h; simp at h
    have h2 : (fsLookup (l ++ [(k, a)]) k).isSome := by
      rw [fsLookup_append_self l k a hnone]
      rfl
    rw [if_pos h2, if_neg h, List.map_append]
    have hid : l.map (fun kv => if kv.1 = k then (k, b) else kv) = l := by
      conv_rhs => rw [← List.map_id l]
      refine List.map_congr_left ?_
      intro kv hkv
      rw [if_neg (fsLookup_none_forall l k hnone kv hkv)]
      rfl
    simp [hid]

/-! ## Backup-naming facts (claim C4) -/

theorem toCh_inj :
    ∀ a < 10, ∀ b < 10, Char.ofNat (48 + a) = Char.ofNat (48 + b) → a = b :=
  by decide

theorem map_toCh_inj :
    ∀ l₁ l₂ : List Nat, (∀ d ∈ l₁, d < 10) → (∀ d ∈ l₂, d < 10) →
      l₁.map (fun d => Char.ofNat (48 + d)) =
        l₂.map (fun d => Char.ofNat (48 + d)) → l₁ = l₂ := by
  intro l₁
  induction l₁ with
  | nil => intro l₂ _ _ h; cases l₂ <;> simp_all
  | cons a t ih =>
    intro l₂ h₁ h₂ h
    cases l₂ with
    | nil => simp_all
    | cons b t₂ =>
      simp only [List.map_cons, List.cons.injEq] at h
      have ha := h₁ a (by simp)
      have hb := h₂ b (by simp)
      have : a = b := toCh_inj a ha b hb h.1
      subst this
      have := ih t₂ (fun d hd => h₁ d (by simp [hd]))
        (fun d hd => h₂ d (by simp [hd])) h.2
      simp [this]

theorem natStr_inj {m n : Nat} (hm : m ≠ 0) (hn : n ≠ 0)
    (h : natStr m = natStr n) : m = n := by
  unfold natStr at h
  simp only [hm, hn, if_false] at h
  have hd : ((Nat.digits 10 m).reverse.map (fun d => Char.ofNat (48 + d))) =
      ((Nat.digits 10 n).reverse.map (fun d => Char.ofNat (48 + d))) :=
    congrArg String.data h
  have hrev := map_toCh_inj _ _
    (fun d hd => Nat.digits_lt_base (by norm_num) (List.mem_reverse.mp hd))
    (fun d hd => Nat.digits_lt_base (by norm_num) (List.mem_reverse.mp hd)) hd
  have := List.reverse_injective hrev
  exact Nat.digits_inj_iff.mp this

theorem natStr_ne_empty {n : Nat} (hn : n ≠ 0) : natStr n ≠ "" := by
  unfold natStr
  simp only [hn, if_false]
  intro h
  have hd : ((Nat.digits 10 n).reverse.map (fun d => Char.ofNat (48 + d))) =
      ([] : List Char) := congrArg String.data h
  simp only [List.map_eq_nil_iff, List.reverse_eq_nil_iff] at hd
  exact Nat.digits_ne_nil_iff_ne_zero.mpr hn hd

/-- The candidate names `<name>.bkp`, `<name>.bkp1`, … are pairwise
distinct. -/
theorem bkpName_inj (fname : String) : Function.Injective (bkpName fname) := by
  intro a b h
  have hdata := congrArg String.data h
  cases a with
  | zero =>
    cases b with
    | zero => rfl
    | succ b =>
      exfalso
      simp only [bkpName, String.data_append] at hdata
      rw [List.append_assoc] at hdata
      have := List.append_cancel_left hdata
      have h2 := (List.append_right_eq_self (x := ".bkp".data)
        (y := (natStr (b + 1)).data)).mp this.symm
      exact natStr_ne_empty (Nat.succ_ne_zero b)
        (congrArg (fun l : List Char => (⟨l⟩ : String)) h2)
  | succ a =>
    cases b with
    | zero =>
      exfalso
      simp only [bkpName, String.data_append] at hdata
      rw [List.append_assoc] at hdata
      have := List.append_cancel_left hdata
      have h2 := (List.append_right_eq_self (x := ".bkp".data)
        (y := (natStr (a + 1)).data)).mp this
      exact natStr_ne_empty (Nat.succ_ne_zero a)
        (congrArg (fun l : List Char => (⟨l⟩ : String)) h2)
    | succ b =>
      simp only [bkpName, String.data_append, List.append_assoc] at hdata
      have h1 := List.append_cancel_left hdata
      have h2 := List.append_cancel_left h1
      have : natStr (a + 1) = natStr (b + 1) :=
        congrArg (fun l : List Char => (⟨l⟩ : String)) h2
      exact congrArg _
        (Nat.succ_injective
          (natStr_inj (Nat.succ_ne_zero a) (Nat.succ_ne_zero b) this))

/-- The fuel-indexed existence loop computes first-fit whenever some free
candidate lies within the fuel window. -/
theorem freshIdxAux_spec (dir : List String) (fname : String) :
    ∀ fuel c, (∃ j, c ≤ j ∧ j < c + fuel ∧ bkpName fname j ∉ dir) →
      bkpName fname (freshIdxAux dir fname fuel c) ∉ dir ∧
      c ≤ freshIdxAux dir fname fuel c ∧
      ∀ j, c ≤ j → j < freshIdxAux dir fname fuel c →
        bkpName fname j ∈ dir := by
  intro fuel
  induction fuel with
  | zero => intro c ⟨j, h₁, h₂, _⟩; omega
  | succ fuel ih =>
    intro c ⟨j, h₁, h₂, h₃⟩
    unfold freshIdxAux
    by_cases hc : bkpName fname c ∈ dir
    · simp only [hc, if_true]
      have hjc : j ≠ c := by intro h; rw [h] at h₃; exact h₃ hc
      have ⟨r₁, r₂, r₃⟩ := ih (c + 1) ⟨j, by omega, by omega, h₃⟩
      refine ⟨r₁, by omega, ?_⟩
      intro k hk₁ hk₂
      rcases Nat.eq_or_lt_of_le hk₁ with h | h
      · rw [← h]; exact hc
      · exact r₃ k h hk₂
    · rw [if_neg hc]
      exact ⟨hc, Nat.le_refl c, fun j h₁ h₂ => absurd h₂ (by omega)⟩

/-- Pigeonhole: among the first `dir.length + 1` candidate names, one is
free. -/
theorem fresh_exists (dir : List String) (fname : String) :
    ∃ j, 0 ≤ j ∧ j < 0 + (dir.length + 1) ∧ bkpName fname j ∉ dir := by
  by_contra hall
  push_neg at hall
  have hmem : ∀ j < dir.length + 1, bkpName fname j ∈ dir := by
    intro j hj
    exact hall j (Nat.zero_le j) (by omega)
  have hsub : (List.range (dir.length + 1)).map (bkpName fname) ⊆ dir := by
    intro x hx
    obtain ⟨j, hj, rfl⟩ := List.mem_map.mp hx
    exact hmem j (List.mem_range.mp hj)
  have hnd : ((List.range (dir.length + 1)).map (bkpName fname)).Nodup :=
    (List.nodup_range _).map (bkpName_inj fname)
  have := (List.subperm_of_subset hnd hsub).length_le
  simp at this

/-- First-fit property of `freshIdx`, hence of the `Gist.backup` loop: the
chosen index is free and every earlier candidate name already exists. -/
theorem freshIdx_spec (dir : List String) (fname : String) :
    bkpName fname (freshIdx dir fname) ∉ dir ∧
    ∀ j < freshIdx dir fname, bkpName fname j ∈ dir := by
  have ⟨h₁, _, h₃⟩ :=
    freshIdxAux_spec dir fname (dir.length + 1) 0 (fresh_exists dir fname)
  exact ⟨h₁, fun j hj => h₃ j (Nat.zero_le j) hj⟩

theorem freshIdx_eq_of (dir : List String) (fname : String) (k : Nat)
    (hk : bkpName fname k ∉ dir) (hlt : ∀ j < k, bkpName fname j ∈ dir) :
    freshIdx dir fname = k := by
  have ⟨h₁, h₂⟩ := freshIdx_spec dir fname
  rcases Nat.lt_trichotomy (freshIdx dir fname) k with h | h | h
  · exact absurd (hlt _ h) h₁
  · exact h
  · exact absurd (h₂ _ h) hk

/-- Under repeated backups starting from a directory with no backup names,
round `k` chooses exactly index `k`, and the accumulated directory holds
exactly the backup names below `k`. -/
theorem iterDirs_spec (dir : List String) (fname : String)
    (h : ∀ c, bkpName fname c ∉ dir) :
    ∀ k, (∀ j, bkpName fname j ∈ iterDirs dir fname k ↔ j < k) ∧
      freshIdx (iterDirs dir fname k) fname = k := by
  intro k
  induction k with
  | zero =>
    constructor
    · intro j
      simp only [iterDirs]
      exact ⟨fun hj => absurd hj (h j), fun hj => absurd hj (by omega)⟩
    · exact freshIdx_eq_of _ _ 0 (h 0) (fun j hj => absurd hj (by omega))
  | succ k ih =>
    have hmem : ∀ j, bkpName fname j ∈ iterDirs dir fname (k + 1) ↔
        j < k + 1 := by
      intro j
      simp only [iterDirs, ih.2, List.mem_cons]
      constructor
      · rintro (hj | hj)
        · have := bkpName_inj fname hj
          omega
        · have := (ih.1 j).mp hj
          omega
      · intro hj
        rcases Nat.lt_succ_iff_lt_or_eq.mp hj with hj | hj
        · exact Or.inr ((ih.1 j).mpr hj)
        · exact Or.inl (by rw [hj])
    refine ⟨hmem, ?_⟩
    exact freshIdx_eq_of _ _ (k + 1)
      (fun hc => by have := (hmem (k + 1)).mp hc; omega)
      (fun j hj => (hmem j).mpr hj)

/-- C4: for every directory state, `Gist.backup` selects the first name in
the sequence `<name>.bkp`, `<name>.bkp1`, `<name>.bkp2`, … that does not
already exist and renames the existing file to it (so it never overwrites
anything, a fresh name being chosen); and, starting from a directory
holding no backup names, repeating the backup `K` times produces exactly
the `K` pairwise-distinct names `<name>.bkp`, …, `<name>.bkp<K-1>` (round
`k` choosing index `k`). -/
theorem backup_first_fit_and_iteration (fname : String) (K : Nat)
    (dir : List String) (h : ∀ c, bkpName fname c ∉ dir) :
    (∀ d : List String,
      bkpName fname (freshIdx d fname) ∉ d ∧
        ∀ j < freshIdx d fname, bkpName fname j ∈ d) ∧
    (∀ (st : St) (old : String), fsLookup st.fs fname = some old →
      ∃ st', backup fname st = .ok st' ∧
        st'.fs = fsWrite (fsRemove st.fs fname)
          (bkpName fname (freshIdx (fsNames st.fs) fname)) old ∧
        bkpName fname (freshIdx (fsNames st.fs) fname) ∉ fsNames st.fs) ∧
    (∀ k < K, freshIdx (iterDirs dir fname k) fname = k) ∧
    (∀ i j, i < K → j < K → i ≠ j → bkpName fname i ≠ bkpName fname j) := by
  refine ⟨fun d => freshIdx_spec d fname, ?_, ?_, ?_⟩
  · intro st old hold
    refine ⟨{ st with
        outputs := st.outputs ++
          ["  " ++ ("Moving existing " ++ fname ++ " to " ++
            bkpName fname (freshIdx (fsNames st.fs) fname) ++ "…")],
        fs := fsWrite (fsRemove st.fs fname)
          (bkpName fname (freshIdx (fsNames st.fs) fname)) old },
      ?_, rfl, (freshIdx_spec (fsNames st.fs) fname).1⟩
    unfold backup
    simp only [St.out]
    rw [hold]
  · intro k _
    exact (iterDirs_spec dir fname h k).2
  · intro i j _ _ hne heq
    exact hne (bkpName_inj fname heq)

/-- Witness for `backup_first_fit_and_iteration` at `fname = "a.txt"`,
`K = 3`, empty directory. -/
theorem backup_first_fit_and_iteration_witness :
    (∀ c, bkpName "a.txt" c ∉ ([] : List String)) ∧
    (∀ k < 3, freshIdx (iterDirs [] "a.txt" k) "a.txt" = k) :=
  ⟨fun c => by simp,
    (backup_first_fit_and_iteration "a.txt" 3 [] (fun c => by simp)).2.2.1⟩

/-! ## Transport error handling (claims C1, C2) -/

/-- C1 (amended): `curl` converts an `HTTPError` and any non-200 status
into a diagnostic naming the URL plus an empty-string result — on those
paths the empty string is the sole failure signal, and a 200 response
returns the body unchanged; but a transport-level failure raised as
anything other than `HTTPError` (unreachable host, timeout — `URLError`;
likewise a body that fails UTF-8 decoding) is not caught and propagates as
an exception. -/
theorem curl_error_handling (w : World) (url : String) (st : St) :
    (w.http url = .netError → curl w url st = .error .netError) ∧
    (w.http url = .httpError →
      curl w url st = .ok ("",
        (st.out ("Fetching " ++ url ++ " …")).out
          ("[Error] Couldn\x27t reach GitHub at " ++ url ++ "."))) ∧
    (∀ body, w.http url = .success 200 body →
      curl w url st = .ok (body, st.out ("Fetching " ++ url ++ " …"))) ∧
    (∀ status body, w.http url = .success status body → status ≠ 200 →
      curl w url st = .ok ("",
        (st.out ("Fetching " ++ url ++ " …")).out
          ("[Error] HTTP Status " ++ url ++ "."))) := by
  refine ⟨fun h => ?_, fun h => ?_, fun body h => ?_, fun s body h hs => ?_⟩
  · simp [curl, h]
  · simp [curl, h]
  · simp [curl, h]
  · simp [curl, h, hs]

/-- Witness for `curl_error_handling`: the HTTPError clause at a concrete
world, URL and state. -/
theorem curl_error_handling_witness :
    (World.mk fun _ => .httpError).http "https://api.github.com/user" =
      .httpError ∧
    curl ⟨fun _ => .httpError⟩ "https://api.github.com/user"
        ⟨[], [], [], []⟩ =
      .ok ("",
        ((⟨[], [], [], []⟩ : St).out
          ("Fetching " ++ "https://api.github.com/user" ++ " …")).out
          ("[Error] Couldn\x27t reach GitHub at " ++
            "https://api.github.com/user" ++ ".")) :=
  ⟨rfl,
    (curl_error_handling ⟨fun _ => .httpError⟩ "https://api.github.com/user"
      ⟨[], [], [], []⟩).2.1 rfl⟩

/-- C1 counterexample: on a transport error other than `HTTPError` (an
unreachable host makes `urlopen` raise `URLError`, which the
`except HTTPError` clause does not catch), `curl` propagates the exception
instead of emitting a diagnostic and returning the empty string — refuting
"never propagates an exception to its caller ... on any transport-level
error". -/
theorem curl_c1_counterexample :
    curl ⟨fun _ => .netError⟩ "https://api.github.com/users/alice/gists"
      ⟨[], [], [], []⟩ = .error .netError := rfl

/-- C2 (amended): with a credential present, a parseable identity response
whose login differs from the username degrades to Anonymous with the
mismatch notice and the public-gists notice and no exception; but when the
identity fetch fails at the Transport level (`curl` hands back its
empty-string failure signal), `json.loads('')` raises and the run aborts
instead of degrading to Anonymous. -/
theorem authenticated_mismatch_or_abort (w : World) (user tok body : String)
    (kvs : List (String × Json)) (l : String) (st : St) (htok : tok ≠ "") :
    (w.http (apiUrl ++ "/user") = .success 200 body →
      jsonLoads body = some (.obj kvs) →
      lookupKV kvs "login" = some (.str l) → l ≠ user →
      authenticated w user (some tok) st = .ok (false,
        ((st.out ("Fetching " ++ (apiUrl ++ "/user") ++ " …")).out
            ("Invalid token for user " ++ user ++ ".")).out
          "Looking for public Gists only.")) ∧
    (w.http (apiUrl ++ "/user") = .httpError →
      authenticated w user (some tok) st = .error .jsonError) := by
  constructor
  · intro hw hp hl hne
    simp [authenticated, get_token, validate_token, tokFalsy, htok, curl, hw,
      bind_ok, hp, Json.getField, hl, hne]
  · intro hw
    simp [authenticated, get_token, validate_token, tokFalsy, htok, curl, hw,
      bind_ok, bind_err, jsonLoads_empty]

/-- Witness for `authenticated_mismatch_or_abort`: the login-mismatch
clause at a concrete world and state. -/
theorem authenticated_mismatch_or_abort_witness :
    ("tok" : String) ≠ "" ∧
    authenticated ⟨fun _ => .success 200 "\x7b\"login\": \"alice\"\x7d"⟩
        "bob" (some "tok") ⟨[], [], [], []⟩ =
      .ok (false,
        (((⟨[], [], [], []⟩ : St).out
              ("Fetching " ++ (apiUrl ++ "/user") ++ " …")).out
            ("Invalid token for user " ++ "bob" ++ ".")).out
          "Looking for public Gists only.") :=
  ⟨by decide,
    (authenticated_mismatch_or_abort
        ⟨fun _ => .success 200 "\x7b\"login\": \"alice\"\x7d"⟩ "bob" "tok"
        "\x7b\"login\": \"alice\"\x7d" [("login", Json.str "alice")] "alice"
        ⟨[], [], [], []⟩ (by decide)).1 rfl rfl rfl (by decide)⟩

/-- C2 counterexample: a credential is present and the identity endpoint
fetch fails (HTTP error → `curl` returns `""`), whereupon
`json.loads('')` raises and `authenticated` propagates the exception —
refuting "authenticate returns the Anonymous state ... and never aborts
the run with an exception". -/
theorem authenticated_c2_counterexample :
    authenticated ⟨fun _ => .httpError⟩ "bob" (some "token")
      ⟨[], [], [], []⟩ = .error .jsonError := rfl

/-! ## Selection (claims C5, C9) -/

/-- C5: a candidate set of size exactly one is selected directly — same
result for either value of the auto-select flag — and with auto-select
enabled any larger candidate set yields its first candidate in listing
order; in both cases the returned state is the input state unchanged: no
prompt, no output, no stdin consumed. -/
theorem select_file_direct (fname : String) (ayes : Bool) (f : GFile)
    (t : List GFile) (st : St) :
    select_file fname ayes [f] st = .ok (some f, st) ∧
    select_file fname true (f :: t) st = .ok (some f, st) := by
  constructor
  · simp [select_file]
  · simp [select_file]

theorem st_foldl_out (g : GFile → String) (l : List GFile) (st : St) :
    l.foldl (fun acc f => acc.out (g f)) st =
      { st with outputs := st.outputs ++ l.map (fun f => "  " ++ g f) } := by
  induction l generalizing st with
  | nil => simp
  | cons f t ih =>
    rw [List.foldl_cons, ih]
    simp [St.out]

theorem validIdxs_of_nodup (files : List GFile) (h : files.Nodup) :
    validIdxs files = (List.range files.length).map (fun j => Int.ofNat j) := by
  apply List.ext_getElem
  · simp only [validIdxs, List.length_map, List.length_range]
  · intro i h₁ h₂
    simp only [validIdxs, List.getElem_map, List.getElem_range]
    rw [List.indexOf_getElem h]
    rfl

theorem mem_validIdxs (files : List GFile) (h : files.Nodup) (x : Int) :
    x ∈ validIdxs files ↔ 0 ≤ x ∧ x < files.length := by
  rw [validIdxs_of_nodup files h]
  simp only [List.mem_map, List.mem_range]
  constructor
  · rintro ⟨j, hj, rfl⟩
    simp only [Int.ofNat_eq_coe]
    omega
  · rintro ⟨h₁, h₂⟩
    refine ⟨x.toNat, by omega, ?_⟩
    simp only [Int.ofNat_eq_coe]
    omega

/-- One disambiguation round of `select_file` with a scripted answer:
print the question and options, consume the answer, then branch exactly as
the source does. -/
theorem select_file_unfold_cons (fname : String) (files : List GFile)
    (st : St) (ans : String) (rest : List String) (hlen : 2 ≤ files.length)
    (hstdin : st.stdin = ans :: rest) :
    select_file fname false files st =
      (match parsePyInt ans with
      | none =>
        select_file fname false files
          ((promptSt fname files st rest).out "Please type a number.")
      | some i =>
        if i - 1 ∈ validIdxs files then
          match files.get? (i - 1).toNat with
          | some sel =>
            .ok (some sel,
              (promptSt fname files st rest).out
                ("Using `" ++ pyStr sel.description ++ "` Gist…"))
          | none => .error .typeError
        else
          select_file fname false files
            ((promptSt fname files st rest).out
              "Invalid number, please try again.")) := by
  have h0 : ¬ files.length = 0 := by omega
  have h1 : ¬ (files.length = 1 ∨ (false = true : Prop)) := by
    rintro (h | h)
    · omega
    · simp at h
  conv_lhs => rw [select_file.eq_def]
  rw [if_neg h0, if_neg h1, hstdin]
  simp only [st_foldl_out]
  simp only [St.out, promptSt]

/-- C9: in multi-match disambiguation, any finite run of invalid answers
(unparsable, or numeric but outside the valid indexes) followed by a valid
1-based index `k` never crashes: each invalid answer triggers exactly one
re-prompt (no retry limit — the prompt count is `bad.length + 1`), and the
final answer selects the `k`-th candidate and announces its description. -/
theorem select_file_retry (fname : String) (files : List GFile)
    (hnd : files.Nodup) (hlen : 2 ≤ files.length) :
    ∀ (bad : List String) (st : St) (ans : String) (rest : List String)
      (k : Int),
      st.stdin = bad ++ ans :: rest →
      (∀ b ∈ bad, parsePyInt b = none ∨
        ∃ i, parsePyInt b = some i ∧
          (i - 1 < 0 ∨ (files.length : Int) ≤ i - 1)) →
      parsePyInt ans = some k → 1 ≤ k → k ≤ files.length →
      ∃ (sel : GFile) (st' : St),
        select_file fname false files st = .ok (some sel, st') ∧
        files.get? (k - 1).toNat = some sel ∧
        st'.stdin = rest ∧
        st'.prompts = st.prompts ++
          List.replicate (bad.length + 1) "  Type the number: " ∧
        ("  " ++ ("Using `" ++
          pyStr sel.description ++ "` Gist…")) ∈ st'.outputs := by
  intro bad
  induction bad with
  | nil =>
    intro st ans rest k hstdin _ hans hk₁ hk₂
    simp only [List.nil_append] at hstdin
    have hbound : (k - 1).toNat < files.length := by omega
    have hmem : k - 1 ∈ validIdxs files :=
      (mem_validIdxs files hnd _).mpr ⟨by omega, by omega⟩
    rw [select_file_unfold_cons fname files st ans rest hlen hstdin, hans]
    simp only [hmem, if_pos, List.get?_eq_get hbound]
    refine ⟨files.get ⟨(k - 1).toNat, hbound⟩, _, rfl, rfl, ?_, ?_, ?_⟩
    · simp [St.out, promptSt]
    · simp [St.out, promptSt, List.replicate]
    · simp [St.out, promptSt]
  | cons b bt ih =>
    intro st ans rest k hstdin hbad hans hk₁ hk₂
    have hstdin' : st.stdin = b :: (bt ++ ans :: rest) := by
      simpa using hstdin
    rw [select_file_unfold_cons fname files st b (bt ++ ans :: rest) hlen
      hstdin']
    have hnext : ∀ msg : String,
        ∃ (sel : GFile) (st' : St),
          select_file fname false files
            ((promptSt fname files st (bt ++ ans :: rest)).out msg) =
              .ok (some sel, st') ∧
          files.get? (k - 1).toNat = some sel ∧
          st'.stdin = rest ∧
          st'.prompts = st.prompts ++
            List.replicate (bt.length + 2) "  Type the number: " ∧
          ("  " ++ ("Using `" ++
            pyStr sel.description ++ "` Gist…")) ∈ st'.outputs := by
      intro msg
      obtain ⟨sel, st', hcomp, hget, hstdin'', hprompts, hmem⟩ :=
        ih ((promptSt fname files st (bt ++ ans :: rest)).out msg)
          ans rest k (by simp [St.out, promptSt])
          (fun x hx => hbad x (by simp [hx])) hans hk₁ hk₂
      refine ⟨sel, st', hcomp, hget, hstdin'', ?_, hmem⟩
      rw [hprompts]
      simp [St.out, promptSt, List.replicate_succ, List.append_assoc]
    rcases hbad b (by simp) with hb | ⟨i, hbi, hrange⟩
    · obtain ⟨sel, st', hcomp, hget, hs, hp, hm⟩ :=
        hnext "Please type a number."
      refine ⟨sel, st', ?_, hget, hs, hp, hm⟩
      rw [hb]
      exact hcomp
    · obtain ⟨sel, st', hcomp, hget, hs, hp, hm⟩ :=
        hnext "Invalid number, please try again."
      have hnotmem : ¬ i - 1 ∈ validIdxs files := by
        rw [mem_validIdxs files hnd]
        omega
      refine ⟨sel, st', ?_, hget, hs, hp, hm⟩
      rw [hbi]
      split
      · next heq => simp at heq
      · next i₁ heq =>
        injection heq with heq₁
        subst heq₁
        rw [if_neg hnotmem]
        exact hcomp

/-- Witness for `select_file_retry`: two candidates, one unparsable answer
`"x"`, then the valid answer `"2"`. -/
theorem select_file_retry_witness :
    ([(⟨Json.str "g1", Json.str "v1", Json.str "u1"⟩ : GFile),
      ⟨Json.str "g2", Json.str "v2", Json.str "u2"⟩].Nodup) ∧
    (∃ (sel : GFile) (st' : St),
      select_file "notes.txt" false
          [⟨Json.str "g1", Json.str "v1", Json.str "u1"⟩,
            ⟨Json.str "g2", Json.str "v2", Json.str "u2"⟩]
          ⟨[], [], ["x", "2"], []⟩ = .ok (some sel, st') ∧
      ([(⟨Json.str "g1", Json.str "v1", Json.str "u1"⟩ : GFile),
        ⟨Json.str "g2", Json.str "v2", Json.str "u2"⟩].get?
          ((2 : Int) - 1).toNat) = some sel ∧
      st'.stdin = [] ∧
      st'.prompts =
        ([] : List String) ++
          List.replicate ((["x"] : List String).length + 1)
            "  Type the number: " ∧
      ("  " ++ ("Using `" ++ pyStr sel.description ++ "` Gist…")) ∈
        st'.outputs) :=
  ⟨by decide,
    select_file_retry "notes.txt"
      [⟨Json.str "g1", Json.str "v1", Json.str "u1"⟩,
        ⟨Json.str "g2", Json.str "v2", Json.str "u2"⟩]
      (by decide) (by decide) ["x"] ⟨[], [], ["x", "2"], []⟩ "2" [] 2 rfl
      (by
        intro b hb
        simp only [List.mem_singleton] at hb
        subst hb
        exact Or.inl rfl)
      rfl (by decide) (by decide)⟩

/-! ## Filtering (claim C8) -/

theorem lookupKV_isSome_any (kvs : List (String × Json)) (k : String) :
    (lookupKV kvs k).isSome = kvs.any (fun kv => kv.1 = k) := by
  induction kvs with
  | nil => rfl
  | cons kv rest ih =>
    obtain ⟨a, b⟩ := kv
    by_cases h : a = k
    · simp [lookupKV, h]
    · simp [lookupKV, h, ih]

theorem filterGistsAux_eq (fname : String) (gs : List Json)
    (h : ∀ g ∈ gs, wfGist fname g = true) :
    filterGistsAux fname gs = .ok (gs.filterMap (specMatch fname)) := by
  induction gs with
  | nil => rfl
  | cons g rest ih =>
    have hg := h g (by simp)
    have htail := ih (fun x hx => h x (by simp [hx]))
    cases g with
    | null => simp [wfGist] at hg
    | bool b => simp [wfGist] at hg
    | num n => simp [wfGist] at hg
    | str s => simp [wfGist] at hg
    | arr xs => simp [wfGist] at hg
    | obj kvs =>
      simp only [wfGist] at hg
      cases hf : lookupKV kvs "files" with
      | none => rw [hf] at hg; simp at hg
      | some files =>
        cases files with
        | null => rw [hf] at hg; simp at hg
        | bool b => rw [hf] at hg; simp at hg
        | num n => rw [hf] at hg; simp at hg
        | str s => rw [hf] at hg; simp at hg
        | arr xs => rw [hf] at hg; simp at hg
        | obj fkvs =>
          simp only [hf] at hg
          cases hk : lookupKV fkvs fname with
          | none =>
            have hany : fkvs.any (fun kv => kv.1 = fname) = false := by
              rw [← lookupKV_isSome_any, hk]
              rfl
            simp only [filterGistsAux, jsonSub, hf, bind_ok, pyIn, hany,
              if_false, Bool.false_eq_true, List.filterMap_cons, specMatch,
              Json.getField, hk, htail]
          | some fm =>
            have hany : fkvs.any (fun kv => kv.1 = fname) = true := by
              rw [← lookupKV_isSome_any, hk]
              rfl
            simp only [hk, Bool.and_eq_true] at hg
            obtain ⟨⟨hid, hdesc⟩, hfm⟩ := hg
            obtain ⟨i, hi⟩ := Option.isSome_iff_exists.mp hid
            obtain ⟨d, hd⟩ := Option.isSome_iff_exists.mp hdesc
            cases fm with
            | null => simp at hfm
            | bool b => simp at hfm
            | num n => simp at hfm
            | str s => simp at hfm
            | arr xs => simp at hfm
            | obj fmkvs =>
              simp only [Option.isSome_iff_exists] at hfm
              obtain ⟨r, hr⟩ := hfm
              simp only [filterGistsAux, jsonSub, hf, bind_ok, pyIn, hany,
                if_true, hi, hd, hk, hr, htail, List.filterMap_cons,
                specMatch, Json.getField]
              rfl

/-- C8: over a well-shaped listing, a gist contributes a match exactly when
its `files` mapping has a key equal (string-exactly) to the target name;
the produced matches are, in listing order, the gist's `id`, its
`description`, and that file's `raw_url` (the content of `specMatch`). -/
theorem filterGists_matches (fname : String) (gs : List Json)
    (h : ∀ g ∈ gs, wfGist fname g = true) :
    filterGists fname (.arr gs) = .ok (gs.filterMap (specMatch fname)) ∧
    ∀ g ∈ gs, (specMatch fname g).isSome = hasFileKey fname g := by
  constructor
  · simp only [filterGists, jsonIter, bind_ok]
    exact filterGistsAux_eq fname gs h
  · intro g hgmem
    have hg := h g hgmem
    cases g with
    | null => simp [wfGist] at hg
    | bool b => simp [wfGist] at hg
    | num n => simp [wfGist] at hg
    | str s => simp [wfGist] at hg
    | arr xs => simp [wfGist] at hg
    | obj kvs =>
      simp only [wfGist] at hg
      cases hf : lookupKV kvs "files" with
      | none => rw [hf] at hg; simp at hg
      | some files =>
        cases files with
        | null => rw [hf] at hg; simp at hg
        | bool b => rw [hf] at hg; simp at hg
        | num n => rw [hf] at hg; simp at hg
        | str s => rw [hf] at hg; simp at hg
        | arr xs => rw [hf] at hg; simp at hg
        | obj fkvs =>
          simp only [hf] at hg
          cases hk : lookupKV fkvs fname with
          | none =>
            have hany : fkvs.any (fun kv => kv.1 = fname) = false := by
              rw [← lookupKV_isSome_any, hk]
              rfl
            simp [specMatch, hasFileKey, Json.getField, hf, hk, hany]
          | some fm =>
            have hany : fkvs.any (fun kv => kv.1 = fname) = true := by
              rw [← lookupKV_isSome_any, hk]
              rfl
            simp only [hk, Bool.and_eq_true] at hg
            obtain ⟨⟨hid, hdesc⟩, hfm⟩ := hg
            obtain ⟨i, hi⟩ := Option.isSome_iff_exists.mp hid
            obtain ⟨d, hd⟩ := Option.isSome_iff_exists.mp hdesc
            cases fm with
            | null => simp at hfm
            | bool b => simp at hfm
            | num n => simp at hfm
            | str s => simp at hfm
            | arr xs => simp at hfm
            | obj fmkvs =>
              simp only [Option.isSome_iff_exists] at hfm
              obtain ⟨r, hr⟩ := hfm
              simp [specMatch, hasFileKey, Json.getField, hf, hk, hany, hi,
                hd, hr]

/-- Witness for `filterGists_matches`: a two-gist listing where only the
second gist carries `notes.txt`. -/
theorem filterGists_matches_witness :
    (∀ g ∈ [Json.obj [("id", Json.str "g1"), ("description", Json.null),
        ("files", Json.obj [("other.md",
          Json.obj [("raw_url", Json.str "u1")])])],
      Json.obj [("id", Json.str "g2"), ("description", Json.str "v2"),
        ("files", Json.obj [("notes.txt",
          Json.obj [("raw_url", Json.str "u2")])])]],
      wfGist "notes.txt" g = true) ∧
    filterGists "notes.txt"
        (.arr [Json.obj [("id", Json.str "g1"), ("description", Json.null),
          ("files", Json.obj [("other.md",
            Json.obj [("raw_url", Json.str "u1")])])],
        Json.obj [("id", Json.str "g2"), ("description", Json.str "v2"),
          ("files", Json.obj [("notes.txt",
            Json.obj [("raw_url", Json.str "u2")])])]]) =
      .ok ([Json.obj [("id", Json.str "g1"), ("description", Json.null),
          ("files", Json.obj [("other.md",
            Json.obj [("raw_url", Json.str "u1")])])],
        Json.obj [("id", Json.str "g2"), ("description", Json.str "v2"),
          ("files", Json.obj [("notes.txt",
            Json.obj [("raw_url", Json.str "u2")])])]].filterMap
        (specMatch "notes.txt")) :=
  ⟨by decide,
    (filterGists_matches "notes.txt" _ (by decide)).1⟩

/-! ## Local reconciliation (claims C3, C7, C10) -/

/-- C7: whenever Transport returns content `C` for the resolved
raw-content URL, any successful `save` leaves the local target holding
exactly `C`. -/
theorem save_roundtrip (w : World) (fname : String) (ayes : Bool)
    (info : GFile) (st st' : St) (url C : String)
    (hurl : info.raw_url = .str url) (hw : w.http url = .success 200 C)
    (hok : save w fname ayes info st = .ok st') :
    fsLookup st'.fs fname = some C := by
  unfold save at hok
  cases he : save_conflict fname ayes st with
  | error e =>
    rw [he] at hok
    simp [bind_err] at hok
  | ok st₀ =>
    rw [he, bind_ok] at hok
    unfold save_fetch at hok
    rw [hurl] at hok
    simp only [curl, hw, bind_ok, St.out, if_true] at hok
    injection hok with h
    rw [← h]
    simp [fsLookup_fsWrite_self]

/-- Witness for `save_roundtrip`: no pre-existing file, auto-select on, a
200 response with body `"data"`. -/
theorem save_roundtrip_witness :
    (⟨Json.str "i", Json.null, Json.str "https://raw"⟩ : GFile).raw_url =
      Json.str "https://raw" ∧
    (World.mk fun _ => .success 200 "data").http "https://raw" =
      .success 200 "data" ∧
    ∃ st' : St,
      save ⟨fun _ => .success 200 "data"⟩ "n.txt" true
        ⟨Json.str "i", Json.null, Json.str "https://raw"⟩ ⟨[], [], [], []⟩ =
        .ok st' ∧
      fsLookup st'.fs "n.txt" = some "data" :=
  ⟨rfl, rfl, _, rfl,
    save_roundtrip ⟨fun _ => .success 200 "data"⟩ "n.txt" true
      ⟨Json.str "i", Json.null, Json.str "https://raw"⟩ ⟨[], [], [], []⟩ _
      "https://raw" "data" rfl rfl rfl⟩

/-- C3 (the latent bug the spec flags): with no pre-existing local file and
a raw-content fetch that fails (`curl` returns its empty-string failure
signal after an HTTP error), `save` completes and leaves an empty file at
the local target path — the very empty-file creation the claim rules out.
Closed evaluation of the code at the failing input. -/
theorem save_empty_file_on_failed_fetch :
    fsExists ([] : List (String × String)) "config.yml" = false ∧
    ∃ st' : St,
      save ⟨fun _ => .httpError⟩ "config.yml" true
        ⟨Json.str "i", Json.null, Json.str "https://raw"⟩ ⟨[], [], [], []⟩ =
        .ok st' ∧
      fsLookup st'.fs "config.yml" = some "" :=
  ⟨rfl, _, rfl, rfl⟩
/-- Behavior of `save_fetch` on a 200 response: truncate-create, fetch, write, report. -/
theorem save_fetch_ok (w : World) (fname : String) (info : GFile)
    (st : St) (url C : String) (hurl : info.raw_url = .str url)
    (hw : w.http url = .success 200 C) :
    save_fetch w fname info st = .ok
      { outputs := st.outputs ++ ["  " ++ ("Fetching " ++ url ++ " …")] ++
          ["  " ++ ("Saving new " ++ fname ++ " …")] ++
          ["  " ++ ("Saved as " ++ fname)] ++ ["  " ++ "Done!"],
        prompts := st.prompts, stdin := st.stdin,
        fs := fsWrite (fsWrite st.fs fname "") fname C } := by
  unfold save_fetch
  rw [hurl]
  simp only [curl, hw, bind_ok, St.out, if_true]

/-- Behavior of `save_conflict` with an existing file, no auto-select, and a reply that
lowercases to `"y"`: ask once, delete. -/
theorem save_conflict_delete (fname : String) (st : St)
    (reply : String) (rest : List String) (old : String)
    (hex : fsLookup st.fs fname = some old)
    (hstdin : st.stdin = reply :: rest) (hy : reply.toLower = "y") :
    save_conflict fname false st = .ok
      { outputs := st.outputs ++
          ["  " ++ ("Deleting existing " ++ fname ++ " …")],
        prompts := st.prompts ++
          ["  " ++ ("Delete existing " ++ fname ++ " ? (y/n) ")],
        stdin := rest,
        fs := fsRemove st.fs fname } := by
  have hexists : fsExists st.fs fname = true := by
    simp [fsExists, hex]
  unfold save_conflict
  rw [if_pos hexists]
  simp only [Bool.false_eq_true, if_false, ask, hstdin]
  rw [if_pos hy]
  simp only [St.out]

/-- Behavior of `save_conflict` with an existing file, no auto-select, and any reply
that does not lowercase to `"y"`: ask once, back up under the first free
backup name. -/
theorem save_conflict_backup (fname : String) (st : St)
    (reply : String) (rest : List String) (old : String)
    (hex : fsLookup st.fs fname = some old)
    (hstdin : st.stdin = reply :: rest) (hy : ¬ reply.toLower = "y") :
    save_conflict fname false st = .ok
      { outputs := st.outputs ++
          ["  " ++ ("Moving existing " ++ fname ++ " to " ++
            bkpName fname (freshIdx (fsNames st.fs) fname) ++ "…")],
        prompts := st.prompts ++
          ["  " ++ ("Delete existing " ++ fname ++ " ? (y/n) ")],
        stdin := rest,
        fs := fsWrite (fsRemove st.fs fname)
          (bkpName fname (freshIdx (fsNames st.fs) fname)) old } := by
  have hexists : fsExists st.fs fname = true := by
    simp [fsExists, hex]
  unfold save_conflict
  rw [if_pos hexists]
  simp only [Bool.false_eq_true, if_false, ask, hstdin]
  rw [if_neg hy]
  unfold backup
  simp only [St.out, hex]

/-- C10: with a local conflict and auto-select off, the question is asked
exactly once (one prompt, one stdin item consumed — never re-asked); the
existing file is deleted exactly when the reply lowercases to `"y"`, and
on every other reply it is preserved under the first free backup name
before the new content is written. -/
theorem save_delete_iff_y (w : World) (fname : String) (info : GFile)
    (st : St) (url C old reply : String) (rest : List String)
    (hex : fsLookup st.fs fname = some old)
    (hstdin : st.stdin = reply :: rest)
    (hurl : info.raw_url = .str url)
    (hw : w.http url = .success 200 C) :
    ∃ st', save w fname false info st = .ok st' ∧
      st'.stdin = rest ∧
      st'.prompts = st.prompts ++
        ["  " ++ ("Delete existing " ++ fname ++ " ? (y/n) ")] ∧
      (if reply.toLower = "y"
       then st'.fs = fsWrite (fsRemove st.fs fname) fname C
       else st'.fs = fsWrite (fsWrite (fsRemove st.fs fname)
         (bkpName fname (freshIdx (fsNames st.fs) fname)) old) fname C) := by
  by_cases hy : reply.toLower = "y"
  · refine ⟨_,
      (by
        unfold save
        rw [save_conflict_delete fname st reply rest old hex hstdin hy,
          bind_ok, save_fetch_ok w fname info _ url C hurl hw] :
        save w fname false info st = .ok _),
      rfl, rfl, ?_⟩
    rw [if_pos hy]
    exact fsWrite_fsWrite (fsRemove st.fs fname) fname "" C
  · refine ⟨_,
      (by
        unfold save
        rw [save_conflict_backup fname st reply rest old hex hstdin hy,
          bind_ok, save_fetch_ok w fname info _ url C hurl hw] :
        save w fname false info st = .ok _),
      rfl, rfl, ?_⟩
    rw [if_neg hy]
    exact fsWrite_fsWrite _ fname "" C

/-- Witness for `save_delete_iff_y`: existing `c.yml` with contents
`"old"`, reply `"no"`. -/
theorem save_delete_iff_y_witness :
    fsLookup [("c.yml", "old")] "c.yml" = some "old" ∧
    ∃ st',
      save ⟨fun _ => .success 200 "new"⟩ "c.yml" false
          ⟨Json.str "i", Json.null, Json.str "https://raw"⟩
          ⟨[], [], ["no"], [("c.yml", "old")]⟩ = .ok st' ∧
      st'.stdin = [] ∧
      st'.prompts = ([] : List String) ++
        ["  " ++ ("Delete existing " ++ "c.yml" ++ " ? (y/n) ")] ∧
      (if ("no" : String).toLower = "y"
       then st'.fs = fsWrite (fsRemove [("c.yml", "old")] "c.yml") "c.yml"
         "new"
       else st'.fs = fsWrite (fsWrite (fsRemove [("c.yml", "old")] "c.yml")
         (bkpName "c.yml" (freshIdx (fsNames [("c.yml", "old")]) "c.yml"))
         "old") "c.yml" "new") :=
  ⟨rfl,
    save_delete_iff_y ⟨fun _ => .success 200 "new"⟩ "c.yml"
      ⟨Json.str "i", Json.null, Json.str "https://raw"⟩
      ⟨[], [], ["no"], [("c.yml", "old")]⟩ "https://raw" "new" "old" "no" []
      rfl rfl rfl rfl⟩

/-! ## Orchestration (claim C6) -/

/-- Whatever authentication does (anonymous, validated, or mismatch), when
it completes it only prints: filesystem, stdin and prompts are untouched. -/
theorem authenticated_fields_aux (w : World) (user : String)
    (envTok : Option String) (st : St) :
    match authenticated w user envTok st with
    | .ok (_, st₁) =>
      st₁.fs = st.fs ∧ st₁.stdin = st.stdin ∧ st₁.prompts = st.prompts
    | .error _ => True := by
  unfold authenticated get_token validate_token
  by_cases htok : tokFalsy envTok = true
  · simp [htok, St.out, bind_ok]
  · have hfl : tokFalsy envTok = false := by simpa using htok
    simp only [hfl, Bool.false_eq_true, if_false, Bool.false_or, curl,
      St.out, bind_ok, bind_err]
    cases hw : w.http (apiUrl ++ "/user") with
    | netError => simp [bind_err]
    | httpError => simp [bind_ok, bind_err, jsonLoads_empty]
    | success status body =>
      simp only [bind_ok, bind_err]
      by_cases hs : status = 200
      · rw [if_pos hs]
        simp only [bind_ok]
        cases hj : jsonLoads body with
        | none => simp [bind_err]
        | some j =>
          cases j with
          | null => simp [bind_err]
          | bool x => simp [bind_err]
          | num x => simp [bind_err]
          | str x => simp [bind_err]
          | arr x => simp [bind_err]
          | obj kvs =>
            simp only [Json.getField]
            cases hl : lookupKV kvs "login" with
            | none => simp [bind_ok, St.out, hfl]
            | some v =>
              cases v with
              | str s =>
                by_cases hsu : s = user
                · simp [bind_ok, St.out, hfl, hsu]
                · simp [bind_ok, St.out, hfl, hsu]
              | null => simp [bind_ok, St.out, hfl]
              | bool x => simp [bind_ok, St.out, hfl]
              | num x => simp [bind_ok, St.out, hfl]
              | arr x => simp [bind_ok, St.out, hfl]
              | obj x => simp [bind_ok, St.out, hfl]
      · rw [if_neg hs]
        simp [bind_ok, bind_err, jsonLoads_empty]

theorem authenticated_fields (w : World) (user : String)
    (envTok : Option String) (st : St) (b : Bool) (st₁ : St)
    (h : authenticated w user envTok st = .ok (b, st₁)) :
    st₁.fs = st.fs ∧ st₁.stdin = st.stdin ∧ st₁.prompts = st.prompts := by
  have haux := authenticated_fields_aux w user envTok st
  rw [h] at haux
  exact haux

/-- C6: when the user's listing contains no gist with the target file
name, the run reports the not-found terminal state — naming both the
username and the file name in one diagnostic line — and exits cleanly: no
exception, no file created or modified, nothing asked.  Holds for every
credential state whose authentication step completes (anonymous,
authenticated, or mismatch). -/
theorem run_getgist_no_match (w : World) (user fname : String)
    (ayes : Bool) (envTok : Option String) (st st₁ : St) (auth : Bool)
    (body : String) (gs : List Json)
    (hauth : authenticated w user envTok st = .ok (auth, st₁))
    (hw : w.http (apiUrl ++ "/users/" ++ user ++ "/gists") =
      .success 200 body)
    (hbody : jsonLoads body = some (.arr gs))
    (hfilter : filterGistsAux fname gs = .ok []) :
    ∃ st', run_getgist w user fname ayes envTok st = .ok st' ∧
      st'.fs = st.fs ∧ st'.stdin = st.stdin ∧ st'.prompts = st.prompts ∧
      ("  " ++ ("[Error] No file named `" ++ fname ++ "` found in " ++
        user ++ "\x27s Gists.")) ∈ st'.outputs := by
  obtain ⟨hfs, hstdin, hprompts⟩ :=
    authenticated_fields w user envTok st auth st₁ hauth
  have hbody_ne : ¬ body = "" := by
    intro h
    rw [h, jsonLoads_empty] at hbody
    exact Option.noConfusion hbody
  have hcomp : load_gist_info w user fname ayes st₁ = .ok (none,
      { outputs := st₁.outputs ++ ["  " ++ ("Fetching " ++
          (apiUrl ++ "/users/" ++ user ++ "/gists") ++ " …")] ++
          ["  " ++ ("[Error] No file named `" ++ fname ++ "` found in " ++
            user ++ "\x27s Gists.")],
        prompts := st₁.prompts, stdin := st₁.stdin, fs := st₁.fs }) := by
    unfold load_gist_info filter_gists query_api filterGists
    simp only [bind_ok, curl, hw, St.out, if_true, hbody_ne, if_false,
      hbody, jsonIter, hfilter, List.isEmpty_nil]
  refine
    ⟨{ outputs := st₁.outputs ++ ["  " ++ ("Fetching " ++
            (apiUrl ++ "/users/" ++ user ++ "/gists") ++ " …")] ++
            ["  " ++ ("[Error] No file named `" ++ fname ++
              "` found in " ++ user ++ "\x27s Gists.")],
       prompts := st₁.prompts, stdin := st₁.stdin, fs := st₁.fs },
      ?_, hfs, hstdin, hprompts, by simp⟩
  unfold run_getgist
  rw [hauth]
  simp only [bind_ok]
  rw [hcomp]
  rfl

/-- Witness for `run_getgist_no_match`: anonymous run, a listing of one
gist that does not contain `notes.txt`. -/
theorem run_getgist_no_match_witness :
    authenticated
        ⟨fun _ =>
          .success 200
            "[\x7b\"id\": \"g1\", \"description\": null, \"files\": \x7b\"other.md\": \x7b\"raw_url\": \"u1\"\x7d\x7d\x7d]"⟩
        "alice" none ⟨[], [], [], []⟩ =
      .ok (false,
        ⟨["  No access token set.", "  Looking for public Gists only."],
          [], [], []⟩) ∧
    ∃ st',
      run_getgist
        ⟨fun _ =>
          .success 200
            "[\x7b\"id\": \"g1\", \"description\": null, \"files\": \x7b\"other.md\": \x7b\"raw_url\": \"u1\"\x7d\x7d\x7d]"⟩
        "alice" "notes.txt" false none ⟨[], [], [], []⟩ = .ok st' ∧
      st'.fs = ([] : List (String × String)) ∧
      st'.stdin = ([] : List String) ∧ st'.prompts = ([] : List String) ∧
      ("  " ++ ("[Error] No file named `" ++ "notes.txt" ++ "` found in " ++
        "alice" ++ "\x27s Gists.")) ∈ st'.outputs :=
  ⟨rfl,
    run_getgist_no_match
      ⟨fun _ =>
        .success 200
          "[\x7b\"id\": \"g1\", \"description\": null, \"files\": \x7b\"other.md\": \x7b\"raw_url\": \"u1\"\x7d\x7d\x7d]"⟩
      "alice" "notes.txt" false none ⟨[], [], [], []⟩
      ⟨["  No access token set.", "  Looking for public Gists only."],
        [], [], []⟩ false
      "[\x7b\"id\": \"g1\", \"description\": null, \"files\": \x7b\"other.md\": \x7b\"raw_url\": \"u1\"\x7d\x7d\x7d]"
      [Json.obj [("id", Json.str "g1"), ("description", Json.null),
        ("files", Json.obj [("other.md",
          Json.obj [("raw_url", Json.str "u1")])])]]
      rfl rfl rfl rfl⟩

end Getgist
